import Mathlib

/-
Verification of the crypto market monitoring pipeline against its
natural-language specification.

The development shallowly embeds the Python ETL code:

* `load_to_staging.py` — the staging loaders (`load_prices_to_staging`,
  `load_sentiment_to_staging`), the GCS listing helper (`list_gcs_files`)
  and the driver (`run_load_to_staging`, `__main__` exit code).
* `src/ingestion/fetch_prices.py` / `fetch_sentiment.py` — the saved raw
  blob shape (`save_to_local_json`) and `validate_data`.
* `init_dimensional_model.py` — the `dim_coin` slowly-changing dimension.
  The repository contains no dimensional transformer (only schema DDL), so
  the SCD-2 upsert is modelled from the specification (see `upsertCoin`).

JSON values are modelled by the inductive `Json`; Python `None` is
`Json.null`, Python dicts are association lists, raised exceptions are
`Except.error`.  A staging row is the dict the Python code builds:
an association list of column name to JSON value.
-/

namespace CryptoPipeline

/-- A JSON value as manipulated by the Python code.  Numbers carry an
integer payload: the pipeline only copies numeric fields verbatim, and the
one place a number is computed with (`int(...)` in the sentiment loader)
receives string-encoded integers, so the payload type is irrelevant to the
control flow being verified. -/
inductive Json where
  | null
  | bool (b : Bool)
  | num (n : Int)
  | str (s : String)
  | arr (xs : List Json)
  | obj (kvs : List (String × Json))

/-- A staging row: the dict literal the loader builds for one leaf record. -/
abbrev StgRow := List (String × Json)

/-- Python `d.get(k)` on a dict: `some v` if the key is present. -/
def pyGetOpt (kvs : List (String × Json)) (k : String) : Option Json :=
  (kvs.find? (fun p => p.1 == k)).map (fun p => p.2)

/-- Python `d.get(k)` with absent keys mapped to `None` (`Json.null`). -/
def pyGet (kvs : List (String × Json)) (k : String) : Json :=
  (pyGetOpt kvs k).getD Json.null

/-- Python `d.get(k, dflt)`. -/
def pyGetD (kvs : List (String × Json)) (k : String) (dflt : Json) : Json :=
  (pyGetOpt kvs k).getD dflt

/-- True iff the value is a Python dict (`Json.obj`). -/
def Json.isObj : Json → Bool
  | .obj _ => true
  | _ => false

/-- Whether a JSON value equals the Python string `"data"` (element test
used by `'data' in data` when the parsed top level is a list). -/
def Json.isStrData : Json → Bool
  | .str s => s == "data"
  | _ => false

/-- `startsWithData cs` holds when `cs` begins with the characters of
`"data"`. -/
def startsWithData : List Char → Bool
  | 'd' :: 'a' :: 't' :: 'a' :: _ => true
  | _ => false

/-- Substring test for `"data"`, modelling Python `'data' in s` on a
string `s`. -/
def containsData : List Char → Bool
  | [] => false
  | c :: rest => startsWithData (c :: rest) || containsData rest

/-- Value of a decimal digit character, if it is one. -/
def digitVal? (c : Char) : Option Nat :=
  if 48 ≤ c.toNat && c.toNat ≤ 57 then some (c.toNat - 48) else none

/-- Decimal value of an all-digit character list (accumulator form). -/
def digitsVal (acc : Nat) : List Char → Option Nat
  | [] => some acc
  | c :: cs =>
    match digitVal? c with
    | some d => digitsVal (acc * 10 + d) cs
    | none => none

/-- Python `int(s)` on a string: an optional sign followed by decimal
digits; anything else raises `ValueError`. -/
def pyStrToInt (s : String) : Option Int :=
  match s.toList with
  | [] => none
  | '-' :: cs =>
    if cs.isEmpty then none else (digitsVal 0 cs).map (fun n => -(n : Int))
  | '+' :: cs =>
    if cs.isEmpty then none else (digitsVal 0 cs).map (fun n => (n : Int))
  | cs => (digitsVal 0 cs).map (fun n => (n : Int))

/-- Python `int(x)` on a JSON value: succeeds on integers, booleans and
integer-formatted strings; raises (`Except.error`) on `None` and other
shapes. -/
def pyIntE : Json → Except Unit Int
  | .num n => .ok n
  | .bool b => .ok (if b then 1 else 0)
  | .str s =>
    match pyStrToInt s with
    | some n => .ok n
    | none => .error ()
  | _ => .error ()

/-- Zero-padded two-digit rendering of a calendar/clock component. -/
def pad2 (n : Nat) : String :=
  if n < 10 then "0" ++ toString n else toString n

/-- Zero-padded four-digit year rendering. -/
def pad4 (n : Nat) : String :=
  if n < 10 then "000" ++ toString n
  else if n < 100 then "00" ++ toString n
  else if n < 1000 then "0" ++ toString n
  else toString n

/-- Proleptic-Gregorian civil date from a count of days since the Unix
epoch (standard era-based algorithm), used to model
`datetime.fromtimestamp(ts, tz=timezone.utc)`. -/
def civilFromDays (z0 : Int) : Int × Nat × Nat :=
  let z := z0 + 719468
  let era : Int := z.fdiv 146097
  let doe : Nat := (z - era * 146097).toNat
  let yoe : Nat := (doe - doe / 1460 + doe / 36524 - doe / 146096) / 365
  let y : Int := (yoe : Int) + era * 400
  let doy : Nat := doe - (365 * yoe + yoe / 4 - yoe / 100)
  let mp : Nat := (5 * doy + 2) / 153
  let d : Nat := doy - (153 * mp + 2) / 5 + 1
  let m : Nat := if mp < 10 then mp + 3 else mp - 9
  (if m ≤ 2 then y + 1 else y, m, d)

/-- `datetime.fromtimestamp(ts, tz=timezone.utc).isoformat()`: the
ISO-8601 instant for an epoch-seconds value, raising outside the
representable year range 1..9999. -/
def epochToIso (ts : Int) : Except Unit String :=
  let days := ts.fdiv 86400
  let secOfDay := (ts - days * 86400).toNat
  let ymd := civilFromDays days
  if ymd.1 < 1 || ymd.1 > 9999 then .error ()
  else
    .ok (pad4 ymd.1.toNat ++ "-" ++ pad2 ymd.2.1 ++ "-" ++ pad2 ymd.2.2 ++ "T"
      ++ pad2 (secOfDay / 3600) ++ ":" ++ pad2 (secOfDay % 3600 / 60) ++ ":"
      ++ pad2 (secOfDay % 60) ++ "+00:00")

/-- The price staging columns and the leaf-record key each is copied from
(`load_prices_to_staging`, the dict literal after `fetch_timestamp` and
`source`). -/
def priceFieldMap : List (String × String) :=
  [("coin_id", "id"), ("symbol", "symbol"), ("name", "name"),
   ("current_price", "current_price"), ("market_cap", "market_cap"),
   ("market_cap_rank", "market_cap_rank"), ("total_volume", "total_volume"),
   ("high_24h", "high_24h"), ("low_24h", "low_24h"),
   ("price_change_24h", "price_change_24h"),
   ("price_change_percentage_24h", "price_change_percentage_24h"),
   ("market_cap_change_24h", "market_cap_change_24h"),
   ("circulating_supply", "circulating_supply"),
   ("total_supply", "total_supply"), ("max_supply", "max_supply"),
   ("last_updated", "last_updated")]

/-- The staging row `load_prices_to_staging` builds for one coin dict:
every field is `coin.get(key)`, with absent keys becoming `None`. -/
def priceRowOfCoin (ft src : Json) (kvs : List (String × Json)) : StgRow :=
  ("fetch_timestamp", ft) :: ("source", src) ::
    priceFieldMap.map (fun p => (p.1, pyGet kvs p.2))

/-- Building the price staging row for one leaf record.  A non-dict leaf
raises (`coin.get` on a non-dict), which the per-blob handler catches. -/
def priceRowE (ft src : Json) : Json → Except Unit StgRow
  | .obj kvs => .ok (priceRowOfCoin ft src kvs)
  | _ => .error ()

/-- Building the sentiment staging row for one leaf record
(`load_sentiment_to_staging`): `value` goes through `int(...)`,
`timestamp` through `int(...)` then `datetime.fromtimestamp(...).isoformat()`;
either raising fails the whole blob's `try`. -/
def sentRowE (ft src : Json) : Json → Except Unit StgRow
  | .obj kvs =>
    match pyIntE (pyGet kvs "value") with
    | .error e => .error e
    | .ok v =>
      match pyIntE (pyGet kvs "timestamp") with
      | .error e => .error e
      | .ok ts =>
        match epochToIso ts with
        | .error e => .error e
        | .ok iso =>
          .ok [("fetch_timestamp", ft), ("source", src), ("value", .num v),
               ("value_classification", pyGet kvs "value_classification"),
               ("timestamp", .str iso),
               ("time_until_update", pyGet kvs "time_until_update")]
  | _ => .error ()

/-- The `for record in data['data']` loop accumulating `rows_to_insert`:
the first raising record aborts the construction (and hence the blob). -/
def buildRows (f : Json → Except Unit StgRow) : List Json → Except Unit (List StgRow)
  | [] => .ok []
  | r :: rs =>
    match f r with
    | .error e => .error e
    | .ok row =>
      match buildRows f rs with
      | .error e => .error e
      | .ok rows => .ok (row :: rows)

/-- Outcome of processing one blob inside the loader's `for` loop.
`inserted` adds the rows and counts them; `insertErrorsLogged` is the
`insert_rows_json` errors branch (logged, nothing counted);
`skippedSilently` is the no-`data`-list / empty-rows path (no log);
`failedLogged` is the `except` branch (logged, loop continues). -/
inductive BlobOutcome where
  | inserted (rows : List StgRow)
  | insertErrorsLogged
  | skippedSilently
  | failedLogged

/-- A raw blob as the loader sees it: `content = none` when
`download_as_text`/`json.loads` raises; `insertErrors` is whether
`insert_rows_json` would report errors for this blob's rows. -/
structure Blob where
  content : Option Json
  insertErrors : Bool

/-- Processing of one successfully parsed blob body (both loaders share
this shape; `rowFn` is the per-record row construction and `dflt` the
source default).  Mirrors `'data' in data and isinstance(data['data'], list)`
including the non-dict top-level cases, where `in` either tests list
membership / substring or raises `TypeError`. -/
def processJson (rowFn : Json → Json → Json → Except Unit StgRow) (dflt : String)
    (j : Json) (insErr : Bool) : BlobOutcome :=
  match j with
  | .obj kvs =>
    match pyGetOpt kvs "data" with
    | some (.arr records) =>
      let ft := pyGet kvs "fetch_timestamp"
      let src := pyGetD kvs "source" (.str dflt)
      match buildRows (rowFn ft src) records with
      | .error _ => .failedLogged
      | .ok rows =>
        if rows.isEmpty then .skippedSilently
        else if insErr then .insertErrorsLogged
        else .inserted rows
    | some _ => .skippedSilently
    | none => .skippedSilently
  | .arr xs => if xs.any Json.isStrData then .failedLogged else .skippedSilently
  | .str s => if containsData s.toList then .failedLogged else .skippedSilently
  | _ => .failedLogged

/-- Processing of one blob, download/parse failures included. -/
def processBlob (rowFn : Json → Json → Json → Except Unit StgRow) (dflt : String)
    (b : Blob) : BlobOutcome :=
  match b.content with
  | none => .failedLogged
  | some j => processJson rowFn dflt j b.insertErrors

/-- The loader's `for blob in blobs` loop, threading the staging table and
the `records_loaded` counter. -/
def loadGo (rowFn : Json → Json → Json → Except Unit StgRow) (dflt : String) :
    List Blob → List StgRow → Nat → List StgRow × Nat
  | [], tbl, n => (tbl, n)
  | b :: bs, tbl, n =>
    match processBlob rowFn dflt b with
    | .inserted rows => loadGo rowFn dflt bs (tbl ++ rows) (n + rows.length)
    | _ => loadGo rowFn dflt bs tbl n

/-- Shared body of `load_prices_to_staging` / `load_sentiment_to_staging`:
the early return on an empty listing, then the per-blob loop.  Returns the
final staging table and the returned `records_loaded` count. -/
def load_to_staging (rowFn : Json → Json → Json → Except Unit StgRow) (dflt : String)
    (blobs : List Blob) (tbl : List StgRow) : List StgRow × Nat :=
  if blobs.isEmpty then (tbl, 0) else loadGo rowFn dflt blobs tbl 0

/-- `load_prices_to_staging`, acting on the `stg_prices_raw` table state. -/
def load_prices_to_staging (blobs : List Blob) (tbl : List StgRow) : List StgRow × Nat :=
  load_to_staging priceRowE "coingecko" blobs tbl

/-- `load_sentiment_to_staging`, acting on the `stg_sentiment_raw` table state. -/
def load_sentiment_to_staging (blobs : List Blob) (tbl : List StgRow) : List StgRow × Nat :=
  load_to_staging sentRowE "feargreed_index" blobs tbl

/-- `list_gcs_files`: a listing failure is caught and yields `[]`; a falsy
`limit` (`None` or `0`) leaves the listing untruncated, otherwise the
first `limit` blobs are kept. -/
def list_gcs_files (available : List Blob) (listingFails : Bool) (limit : Option Nat) :
    List Blob :=
  if listingFails then []
  else
    match limit with
    | none => available
    | some 0 => available
    | some n => available.take n

/-- The environment variables `run_load_to_staging` reads. -/
structure Env where
  gcp_project_id : Option String
  bq_dataset : Option String
  gcs_bucket_name : Option String

/-- Python truthiness of `os.getenv(...)`: unset (`None`) and the empty
string are falsy. -/
def truthyStr : Option String → Bool
  | none => false
  | some s => !s.isEmpty

/-- The two staging tables. -/
structure StagingDB where
  stg_prices_raw : List StgRow
  stg_sentiment_raw : List StgRow

/-- The GCS side visible to one `run_load_to_staging` invocation: the
blobs under each prefix and whether listing each prefix raises. -/
structure GcsWorld where
  priceFiles : List Blob
  sentimentFiles : List Blob
  priceListingFails : Bool
  sentimentListingFails : Bool

/-- `run_load_to_staging`: the `not all([project_id, bucket_name])` guard,
then both loads; returns the updated staging tables and the boolean
result (`False` on the configuration error, `True` otherwise). -/
def run_load_to_staging (env : Env) (w : GcsWorld) (db : StagingDB)
    (limit_files : Option Nat) : StagingDB × Bool :=
  if truthyStr env.gcp_project_id && truthyStr env.gcs_bucket_name then
    ⟨⟨(load_prices_to_staging
          (list_gcs_files w.priceFiles w.priceListingFails limit_files)
          db.stg_prices_raw).1,
      (load_sentiment_to_staging
          (list_gcs_files w.sentimentFiles w.sentimentListingFails limit_files)
          db.stg_sentiment_raw).1⟩, true⟩
  else ⟨db, false⟩

/-- The `__main__` block: `exit(0 if success else 1)` after
`run_load_to_staging(limit_files=10)`. -/
def main_exit_code (env : Env) (w : GcsWorld) (db : StagingDB) : Nat :=
  if (run_load_to_staging env w db (some 10)).2 then 0 else 1

/-- Python truthiness of the fetched value (`if not data`). -/
def pyFalsy : Option Json → Bool
  | none => true
  | some .null => true
  | some (.bool b) => !b
  | some (.num n) => n == 0
  | some (.str s) => s.isEmpty
  | some (.arr xs) => xs.isEmpty
  | some (.obj kvs) => kvs.isEmpty

/-- Python `len(...)` on a JSON value: defined on sized values, raising on
scalars. -/
def pyLen : Json → Except Unit Nat
  | .arr xs => .ok xs.length
  | .str s => .ok s.length
  | .obj kvs => .ok kvs.length
  | _ => .error ()

/-- `validate_data` from the ingestion scripts (`required` is the
script-specific required-field list): rejects falsy and non-list input,
then checks the required fields on the first element only, and only when
that element is a dict. -/
def validate_data (required : List String) (d : Option Json) : Bool :=
  if pyFalsy d then false
  else
    match d with
    | some (.arr xs) =>
      match xs with
      | [] => true
      | x :: _ =>
        match x with
        | .obj kvs => required.all (fun f => (pyGetOpt kvs f).isSome)
        | _ => true
    | _ => false

/-- Required fields checked by `fetch_prices.validate_data`. -/
def priceRequiredFields : List String :=
  ["id", "symbol", "name", "current_price", "market_cap"]

/-- Required fields checked by `fetch_sentiment.validate_data`. -/
def sentimentRequiredFields : List String :=
  ["value", "value_classification", "timestamp"]

/-- The JSON object `save_to_local_json` writes (both ingestion scripts):
`None` input is rejected, a raising `len` is caught and yields no file,
otherwise the four-field wrapper object is written. -/
def save_to_local_json (nowIso source : String) (d : Option Json) : Option Json :=
  match d with
  | none => none
  | some v =>
    match pyLen v with
    | .error _ => none
    | .ok n =>
      some (.obj [("fetch_timestamp", .str nowIso), ("source", .str source),
        ("num_records", .num (n : Int)), ("data", v)])

/-- The blob content `run_ingestion` ends up writing for a given fetch
result: nothing unless `validate_data` passes, else the saved wrapper. -/
def run_ingestion_blob (required : List String) (source nowIso : String)
    (fetched : Option Json) : Option Json :=
  if validate_data required fetched then save_to_local_json nowIso source fetched
  else none

/-- True iff the blob body's `data` key holds a list (the loaders'
processing condition). -/
def hasDataList (kvs : List (String × Json)) : Bool :=
  match pyGetOpt kvs "data" with
  | some (.arr _) => true
  | _ => false

/-- A row of the `dim_coin` table, with the columns declared by
`dim_coin_schema` in `init_dimensional_model.py` (surrogate key modelled
as a number, timestamps as naturals). -/
structure DimCoinRow where
  coin_key : Nat
  coin_id : String
  symbol : String
  name : String
  effective_date : Nat
  expiry_date : Option Nat
  is_current : Bool
deriving DecidableEq

/-- A coin attribute set read from staging, as the transformer would see
it: the natural key (coin identifier + symbol) and the tracked attribute
(name). -/
structure CoinStaged where
  coin_id : String
  symbol : String
  name : String
deriving DecidableEq

/-- The `dim_coin` table contents plus the surrogate-key allocator. -/
structure DimCoinState where
  rows : List DimCoinRow
  next_key : Nat
deriving DecidableEq

/-- The currently-active-row predicate for a natural key. -/
def isCurrentFor (cid sym : String) (r : DimCoinRow) : Bool :=
  r.is_current && r.coin_id == cid && r.symbol == sym

/-- Expiring a row: expiry date set to `now`, `is_current` cleared; all
other columns kept. -/
def expireRow (now : Nat) (r : DimCoinRow) : DimCoinRow :=
  ⟨r.coin_key, r.coin_id, r.symbol, r.name, r.effective_date, some now, false⟩

/-- Modelled from the spec: the repository contains no dimensional
transformer (only the `dim_coin` DDL in `init_dimensional_model.py`), so
this is the §4.2 coin-dimension SCD-2 upsert: look up the currently
active row for the natural key; if none, insert a fresh active row; if
one exists with an unchanged tracked attribute, no-op; otherwise expire
the old row and insert a fresh active row with a new surrogate key,
effective date `now` and open expiry. -/
def upsertCoin (now : Nat) (st : DimCoinState) (c : CoinStaged) : DimCoinState :=
  match st.rows.find? (isCurrentFor c.coin_id c.symbol) with
  | none =>
    ⟨st.rows ++ [⟨st.next_key, c.coin_id, c.symbol, c.name, now, none, true⟩],
      st.next_key + 1⟩
  | some cur =>
    if cur.name == c.name then st
    else
      ⟨(st.rows.map (fun r =>
          if isCurrentFor c.coin_id c.symbol r then expireRow now r else r))
          ++ [⟨st.next_key, c.coin_id, c.symbol, c.name, now, none, true⟩],
        st.next_key + 1⟩

/-- Modelled from the spec: one transformer run over a batch of staged
coin records, applying the upsert per record. -/
def transformerRun (now : Nat) (batch : List CoinStaged) (st : DimCoinState) :
    DimCoinState :=
  batch.foldl (upsertCoin now) st

/-- Modelled from the spec: a sequence of transformer runs, each with its
own effective date and batch. -/
def transformerRuns : List (Nat × List CoinStaged) → DimCoinState → DimCoinState
  | [], st => st
  | r :: rs, st => transformerRuns rs (transformerRun r.1 r.2 st)

/-- Number of active rows for one natural key. -/
def currentCount (rows : List DimCoinRow) (cid sym : String) : Nat :=
  rows.countP (isCurrentFor cid sym)

/-- The coin-dimension invariant: at most one active row per natural key. -/
def AtMostOneCurrent (rows : List DimCoinRow) : Prop :=
  ∀ cid sym, currentCount rows cid sym ≤ 1

/-- Well-formedness of the surrogate-key allocator: every allocated key
is below the next free one. -/
def keysBelow (st : DimCoinState) : Bool :=
  st.rows.all (fun r => r.coin_key < st.next_key)

/-- Fields of a well-formed sentiment leaf record (value 65 at epoch
1700000000), with the string-encoded fields the sentiment API ships. -/
def sentGoodKvs : List (String × Json) :=
  [("value", .str "65"), ("value_classification", .str "Greed"),
   ("timestamp", .str "1700000000"), ("time_until_update", .str "3600")]

/-- A well-formed sentiment leaf record. -/
def sentGoodRecord : Json := .obj sentGoodKvs

/-- A sentiment leaf record whose `value` fails `int(...)`. -/
def sentBadRecord : Json :=
  .obj [("value", .str "not-a-number"), ("value_classification", .str "Fear"),
        ("timestamp", .str "1700000000"), ("time_until_update", .str "3600")]

/-- The parsed body of a sentiment blob holding one valid record followed
by one malformed record. -/
def sentDemoBody : List (String × Json) :=
  [("fetch_timestamp", .str "2023-11-14T23:00:00+00:00"),
   ("source", .str "feargreed_index"), ("num_records", .num 2),
   ("data", .arr [sentGoodRecord, sentBadRecord])]

/-- A sentiment blob holding one valid record followed by one malformed
record. -/
def sentDemoBlob : Blob := ⟨some (.obj sentDemoBody), false⟩

/-- The fields of a price leaf record missing `id`. -/
def priceNoIdKvs : List (String × Json) :=
  [("symbol", .str "btc"), ("name", .str "Bitcoin")]

/-- A price leaf record missing `id`. -/
def priceNoIdRecord : Json := .obj priceNoIdKvs

/-- A complete-enough price leaf record. -/
def priceWithIdRecord : Json :=
  .obj [("id", .str "bitcoin"), ("symbol", .str "btc"), ("name", .str "Bitcoin")]

/-- The parsed body of a price blob whose first record lacks `id`. -/
def priceDemoBody : List (String × Json) :=
  [("fetch_timestamp", .str "2023-11-14T23:00:00+00:00"),
   ("source", .str "coingecko"), ("num_records", .num 2),
   ("data", .arr [priceNoIdRecord, priceWithIdRecord])]

/-- A price blob whose first record lacks `id`. -/
def priceDemoBlob : Blob := ⟨some (.obj priceDemoBody), false⟩

/-- A blob whose download or JSON parse raises. -/
def unparseableBlob : Blob := ⟨none, false⟩

/-- A blob that parses to an object with no `data` key. -/
def noDataBlob : Blob := ⟨some (.obj [("hello", .null)]), false⟩

/-- A fetched price payload passing `validate_data`. -/
def fetchedPricesDemo : Option Json :=
  some (.arr [.obj [("id", .str "bitcoin"), ("symbol", .str "btc"),
                    ("name", .str "Bitcoin"), ("current_price", .num 43000),
                    ("market_cap", .num 840000000000)]])

/-- An initial `dim_coin` state with one active Foo row for bitcoin. -/
def dimDemoState : DimCoinState :=
  ⟨[⟨0, "bitcoin", "btc", "Foo", 1, none, true⟩], 1⟩

/-- The active bitcoin row of `dimDemoState`. -/
def dimDemoOldRow : DimCoinRow := ⟨0, "bitcoin", "btc", "Foo", 1, none, true⟩

/-- A staged bitcoin record with a changed name. -/
def dimDemoStaged : CoinStaged := ⟨"bitcoin", "btc", "Bar"⟩

/-- Two transformer runs: bitcoin first named Foo, then renamed Bar. -/
def dimDemoRuns : List (Nat × List CoinStaged) :=
  [(1, [⟨"bitcoin", "btc", "Foo"⟩]), (2, [⟨"bitcoin", "btc", "Bar"⟩])]

/-- An empty GCS world. -/
def demoWorld : GcsWorld := ⟨[], [], false, false⟩

/-- A GCS world in which every blob fails to parse. -/
def failWorld : GcsWorld := ⟨[unparseableBlob], [unparseableBlob], false, false⟩

/-- Empty staging tables. -/
def demoDB : StagingDB := ⟨[], []⟩

/-- An environment with the project id unset. -/
def envMissingProject : Env := ⟨none, some "crypto_pipeline", some "crypto-bucket"⟩

/-- A fully configured environment. -/
def envComplete : Env := ⟨some "my-project", some "crypto_pipeline", some "crypto-bucket"⟩

/-- The early-return on an empty listing coincides with running the loop
on no blobs. -/
theorem load_eq_loadGo (f : Json → Json → Json → Except Unit StgRow) (d : String)
    (blobs : List Blob) (tbl : List StgRow) :
    load_to_staging f d blobs tbl = loadGo f d blobs tbl 0 := by
  cases blobs <;> simp [load_to_staging, loadGo]

/-- The per-blob loop processes a concatenation left to right. -/
theorem loadGo_append (f : Json → Json → Json → Except Unit StgRow) (d : String)
    (as bs : List Blob) : ∀ (tbl : List StgRow) (n : Nat),
    loadGo f d (as ++ bs) tbl n =
      loadGo f d bs (loadGo f d as tbl n).1 (loadGo f d as tbl n).2 := by
  induction as with
  | nil => intro tbl n; simp [loadGo]
  | cons a as ih =>
    intro tbl n
    cases h : processBlob f d a <;> simp [loadGo, h, ih]

/-- A blob that does not reach a successful insert leaves the loop state
unchanged. -/
theorem loadGo_skip (f : Json → Json → Json → Except Unit StgRow) (d : String)
    (b : Blob) (bs : List Blob) (tbl : List StgRow) (n : Nat)
    (h : ∀ rows, processBlob f d b ≠ BlobOutcome.inserted rows) :
    loadGo f d (b :: bs) tbl n = loadGo f d bs tbl n := by
  cases hp : processBlob f d b with
  | inserted rows => exact absurd hp (h rows)
  | insertErrorsLogged => simp [loadGo, hp]
  | skippedSilently => simp [loadGo, hp]
  | failedLogged => simp [loadGo, hp]

/-- The loop's returned count is exactly the growth of the staging table. -/
theorem loadGo_count (f : Json → Json → Json → Except Unit StgRow) (d : String)
    (bs : List Blob) : ∀ (tbl : List StgRow) (n : Nat),
    (loadGo f d bs tbl n).1.length + n = tbl.length + (loadGo f d bs tbl n).2 := by
  induction bs with
  | nil => intro tbl n; simp [loadGo]
  | cons b bs ih =>
    intro tbl n
    cases h : processBlob f d b with
    | inserted rows =>
      have := ih (tbl ++ rows) (n + rows.length)
      simp only [loadGo, h]
      simp [List.length_append] at this
      omega
    | insertErrorsLogged => simp only [loadGo, h]; exact ih tbl n
    | skippedSilently => simp only [loadGo, h]; exact ih tbl n
    | failedLogged => simp only [loadGo, h]; exact ih tbl n

/-- Building price rows succeeds on a list of dict records, producing one
row per record via `priceRowOfCoin`. -/
theorem buildRows_price_ok (ft src : Json) :
    ∀ records : List Json, records.all Json.isObj = true →
    ∃ rows : List StgRow, buildRows (priceRowE ft src) records = .ok rows ∧
      rows.length = records.length ∧
      List.Forall₂ (fun c row => ∀ ckvs, c = Json.obj ckvs →
        row = priceRowOfCoin ft src ckvs) records rows := by
  intro records h
  induction records with
  | nil => exact ⟨[], rfl, rfl, List.Forall₂.nil⟩
  | cons r rs ih =>
    rw [List.all_cons, Bool.and_eq_true] at h
    obtain ⟨hr, hrs⟩ := h
    obtain ⟨rows, hb, hlen, hfa⟩ := ih hrs
    cases r with
    | obj kvs =>
      refine ⟨priceRowOfCoin ft src kvs :: rows, ?_, ?_, ?_⟩
      · simp [buildRows, priceRowE, hb]
      · simp [hlen]
      · exact List.forall₂_cons.mpr
          ⟨fun ckvs hc => by cases hc; rfl, hfa⟩
    | null => simp [Json.isObj] at hr
    | bool b => simp [Json.isObj] at hr
    | num n => simp [Json.isObj] at hr
    | str s => simp [Json.isObj] at hr
    | arr xs => simp [Json.isObj] at hr

/-- Loading a single well-formed price blob: all records become rows, the
count equals the record count. -/
theorem load_price_single (b : Blob) (kvs : List (String × Json))
    (records : List Json) (tbl : List StgRow)
    (hc : b.content = some (Json.obj kvs))
    (hd : pyGetOpt kvs "data" = some (Json.arr records))
    (ho : records.all Json.isObj = true)
    (he : b.insertErrors = false) :
    ∃ rows : List StgRow,
      buildRows (priceRowE (pyGet kvs "fetch_timestamp")
        (pyGetD kvs "source" (Json.str "coingecko"))) records = .ok rows ∧
      rows.length = records.length ∧
      List.Forall₂ (fun c row => ∀ ckvs, c = Json.obj ckvs →
        row = priceRowOfCoin (pyGet kvs "fetch_timestamp")
          (pyGetD kvs "source" (Json.str "coingecko")) ckvs) records rows ∧
      load_prices_to_staging [b] tbl = (tbl ++ rows, records.length) := by
  obtain ⟨rows, hb, hlen, hfa⟩ := buildRows_price_ok
    (pyGet kvs "fetch_timestamp") (pyGetD kvs "source" (Json.str "coingecko")) records ho
  refine ⟨rows, hb, hlen, hfa, ?_⟩
  have hproc : processBlob priceRowE "coingecko" b =
      (if rows.isEmpty then BlobOutcome.skippedSilently else BlobOutcome.inserted rows) := by
    simp [processBlob, hc, processJson, hd, hb, he]
  by_cases hre : rows.isEmpty
  · have hnil : rows = [] := List.isEmpty_iff.mp hre
    subst hnil
    rw [hre] at hproc
    simp only [if_pos] at hproc
    rw [load_prices_to_staging, load_eq_loadGo]
    simp [loadGo, hproc, ← hlen]
  · rw [if_neg hre] at hproc
    rw [load_prices_to_staging, load_eq_loadGo]
    simp [loadGo, hproc, ← hlen]

/-- If some record in the loop raises, the whole row construction raises. -/
theorem buildRows_error_of_mem (f : Json → Except Unit StgRow) :
    ∀ records : List Json, (∃ r ∈ records, f r = .error ()) →
    buildRows f records = .error () := by
  intro records
  induction records with
  | nil => rintro ⟨r, hr, _⟩; cases hr
  | cons a rs ih =>
    rintro ⟨r, hr, hf⟩
    cases hfa : f a with
    | error e => cases e; simp [buildRows, hfa]
    | ok row =>
      have hrtail : r ∈ rs := by
        rcases List.mem_cons.mp hr with h | h
        · subst h; rw [hf] at hfa; cases hfa
        · exact h
      simp [buildRows, hfa, ih ⟨r, hrtail, hf⟩]

/-- Counting over a mapped list is unchanged when the map preserves the
predicate on every member. -/
theorem countP_map_congr {α : Type} (q : α → Bool) (g : α → α) :
    ∀ l : List α, (∀ r ∈ l, q (g r) = q r) → (l.map g).countP q = l.countP q := by
  intro l h
  induction l with
  | nil => rfl
  | cons a l ih =>
    simp only [List.map_cons, List.countP_cons, h a (List.mem_cons_self a l)]
    rw [ih (fun r hr => h r (List.mem_cons_of_mem a hr))]

/-- Counting over a mapped list is zero when the map kills the predicate
on every member. -/
theorem countP_map_zero {α : Type} (q : α → Bool) (g : α → α)
    (l : List α) (h : ∀ r ∈ l, q (g r) = false) : (l.map g).countP q = 0 := by
  refine List.countP_eq_zero.mpr ?_
  intro a ha
  obtain ⟨r, hr, rfl⟩ := List.mem_map.mp ha
  simp [h r hr]

/-- A negative lookup means no member satisfies the predicate, so the
count is zero. -/
theorem countP_zero_of_find?_none {α : Type} (q : α → Bool) (l : List α)
    (h : l.find? q = none) : l.countP q = 0 :=
  List.countP_eq_zero.mpr (List.find?_eq_none.mp h)

/-- An expired row is never the active row of any natural key. -/
theorem isCurrentFor_expireRow (cid sym : String) (now : Nat) (r : DimCoinRow) :
    isCurrentFor cid sym (expireRow now r) = false := by
  simp [isCurrentFor, expireRow]

/-- A single coin upsert preserves the at-most-one-active-row invariant. -/
theorem upsertCoin_inv (now : Nat) (st : DimCoinState) (c : CoinStaged)
    (h : AtMostOneCurrent st.rows) : AtMostOneCurrent (upsertCoin now st c).rows := by
  intro cid sym
  cases hf : st.rows.find? (isCurrentFor c.coin_id c.symbol) with
  | none =>
    simp only [currentCount, upsertCoin, hf, List.countP_append,
      List.countP_cons, List.countP_nil]
    by_cases hk : c.coin_id = cid ∧ c.symbol = sym
    · obtain ⟨h1, h2⟩ := hk
      subst h1; subst h2
      rw [countP_zero_of_find?_none _ _ hf]
      simp [isCurrentFor]
    · have hnew : isCurrentFor cid sym
          ⟨st.next_key, c.coin_id, c.symbol, c.name, now, none, true⟩ = false := by
        simp only [isCurrentFor]
        rcases Decidable.not_and_iff_or_not.mp hk with h1 | h1 <;>
          simp [beq_iff_eq, h1]
      rw [hnew]
      simpa using h cid sym
  | some cur =>
    by_cases hn : (cur.name == c.name) = true
    · simp only [upsertCoin, hf, if_pos hn]
      exact h cid sym
    · simp only [upsertCoin, hf, if_neg hn, currentCount, List.countP_append,
        List.countP_cons, List.countP_nil]
      by_cases hk : c.coin_id = cid ∧ c.symbol = sym
      · obtain ⟨h1, h2⟩ := hk
        subst h1; subst h2
        have hz : (st.rows.map (fun r =>
            if isCurrentFor c.coin_id c.symbol r then expireRow now r else r)).countP
            (isCurrentFor c.coin_id c.symbol) = 0 := by
          refine countP_map_zero _ _ _ ?_
          intro r _
          by_cases hpr : isCurrentFor c.coin_id c.symbol r = true
          · rw [if_pos hpr]; exact isCurrentFor_expireRow c.coin_id c.symbol now r
          · rw [if_neg hpr]; exact Bool.eq_false_iff.mpr hpr
        rw [hz]
        simp [isCurrentFor]
      · have hnew : isCurrentFor cid sym
            ⟨st.next_key, c.coin_id, c.symbol, c.name, now, none, true⟩ = false := by
          simp only [isCurrentFor]
          rcases Decidable.not_and_iff_or_not.mp hk with h1 | h1 <;>
            simp [beq_iff_eq, h1]
        have hmap : (st.rows.map (fun r =>
            if isCurrentFor c.coin_id c.symbol r then expireRow now r else r)).countP
            (isCurrentFor cid sym) = st.rows.countP (isCurrentFor cid sym) := by
          refine countP_map_congr _ _ _ ?_
          intro r _
          by_cases hpr : isCurrentFor c.coin_id c.symbol r = true
          · rw [if_pos hpr, isCurrentFor_expireRow]
            have hrkey : r.coin_id = c.coin_id ∧ r.symbol = c.symbol := by
              simp only [isCurrentFor, Bool.and_eq_true, beq_iff_eq] at hpr
              exact ⟨hpr.1.2, hpr.2⟩
            simp only [isCurrentFor]
            rcases Decidable.not_and_iff_or_not.mp hk with h1 | h1 <;>
              simp [beq_iff_eq, hrkey.1, hrkey.2, h1]
          · rw [if_neg hpr]
        rw [hmap, hnew]
        simpa using h cid sym

/-- One transformer run preserves the invariant. -/
theorem transformerRun_inv (now : Nat) (batch : List CoinStaged) :
    ∀ st : DimCoinState, AtMostOneCurrent st.rows →
    AtMostOneCurrent (transformerRun now batch st).rows := by
  induction batch with
  | nil => intro st h; simpa [transformerRun] using h
  | cons c cs ih =>
    intro st h
    simp only [transformerRun, List.foldl_cons]
    exact ih (upsertCoin now st c) (upsertCoin_inv now st c h)

/-- Any sequence of transformer runs preserves the invariant. -/
theorem transformerRuns_inv (runs : List (Nat × List CoinStaged)) :
    ∀ st : DimCoinState, AtMostOneCurrent st.rows →
    AtMostOneCurrent (transformerRuns runs st).rows := by
  induction runs with
  | nil => intro st h; exact h
  | cons r rs ih =>
    intro st h
    exact ih (transformerRun r.1 r.2 st) (transformerRun_inv r.1 r.2 st h)

/-- A single coin upsert keeps all surrogate keys below the allocator. -/
theorem upsertCoin_keys (now : Nat) (st : DimCoinState) (c : CoinStaged)
    (h : keysBelow st = true) : keysBelow (upsertCoin now st c) = true := by
  rw [keysBelow, List.all_eq_true] at h
  rw [keysBelow, List.all_eq_true]
  simp only [decide_eq_true_eq] at h ⊢
  intro r hr
  cases hf : st.rows.find? (isCurrentFor c.coin_id c.symbol) with
  | none =>
    simp only [upsertCoin, hf] at hr ⊢
    rcases List.mem_append.mp hr with hm | hm
    · exact Nat.lt_succ_of_lt (h r hm)
    · rw [List.mem_singleton.mp hm]
      exact Nat.lt_succ_self _
  | some cur =>
    by_cases hn : (cur.name == c.name) = true
    · simp only [upsertCoin, hf, if_pos hn] at hr ⊢
      exact h r hr
    · simp only [upsertCoin, hf, if_neg hn] at hr ⊢
      rcases List.mem_append.mp hr with hm | hm
      · obtain ⟨r0, hr0, hr0eq⟩ := List.mem_map.mp hm
        have hkey : r.coin_key = r0.coin_key := by
          by_cases hpr : isCurrentFor c.coin_id c.symbol r0 = true
          · rw [if_pos hpr] at hr0eq; rw [← hr0eq]; rfl
          · rw [if_neg hpr] at hr0eq; rw [← hr0eq]
        rw [hkey]
        exact Nat.lt_succ_of_lt (h r0 hr0)
      · rw [List.mem_singleton.mp hm]
        exact Nat.lt_succ_self _

/-- One transformer run keeps all surrogate keys below the allocator. -/
theorem transformerRun_keys (now : Nat) (batch : List CoinStaged) :
    ∀ st : DimCoinState, keysBelow st = true →
    keysBelow (transformerRun now batch st) = true := by
  induction batch with
  | nil => intro st h; simpa [transformerRun] using h
  | cons c cs ih =>
    intro st h
    simp only [transformerRun, List.foldl_cons]
    exact ih (upsertCoin now st c) (upsertCoin_keys now st c h)

/-- Any sequence of transformer runs keeps all surrogate keys below the
allocator. -/
theorem transformerRuns_keys (runs : List (Nat × List CoinStaged)) :
    ∀ st : DimCoinState, keysBelow st = true →
    keysBelow (transformerRuns runs st) = true := by
  induction runs with
  | nil => intro st h; exact h
  | cons r rs ih =>
    intro st h
    exact ih (transformerRun r.1 r.2 st) (transformerRun_keys r.1 r.2 st h)

/-- A passing `validate_data` forces the fetched value to be a list. -/
theorem validate_true_arr (required : List String) (d : Option Json)
    (h : validate_data required d = true) : ∃ xs : List Json, d = some (Json.arr xs) := by
  by_cases hf : pyFalsy d = true
  · simp [validate_data, hf] at h
  · cases d with
    | none => simp [pyFalsy] at hf
    | some v =>
      cases v with
      | arr xs => exact ⟨xs, rfl⟩
      | null => simp [pyFalsy] at hf
      | bool b => simp [validate_data, hf] at h
      | num n => simp [validate_data, hf] at h
      | str s => simp [validate_data, hf] at h
      | obj kvs => simp [validate_data, hf] at h

/-- C1: for a raw price blob parsing as JSON with a top-level `data` list
of N leaf records, none malformed (every record a dict), a successful run
of `load_prices_to_staging` inserts exactly N staging rows for that blob
(one row per leaf record, built by `priceRowOfCoin`, with absent optional
fields mapped to null) and returns N as the count of loaded records. -/
theorem stg_prices_loads_one_row_per_record
    (b : Blob) (kvs : List (String × Json)) (records : List Json) (tbl : List StgRow)
    (hc : b.content = some (Json.obj kvs))
    (hd : pyGetOpt kvs "data" = some (Json.arr records))
    (ho : records.all Json.isObj = true)
    (he : b.insertErrors = false) :
    ∃ rows : List StgRow,
      rows.length = records.length ∧
      load_prices_to_staging [b] tbl = (tbl ++ rows, records.length) ∧
      List.Forall₂ (fun c row => ∀ ckvs, c = Json.obj ckvs →
        row = priceRowOfCoin (pyGet kvs "fetch_timestamp")
          (pyGetD kvs "source" (Json.str "coingecko")) ckvs) records rows ∧
      ∀ (ckvs : List (String × Json)) (p : String × String), p ∈ priceFieldMap →
        pyGetOpt ckvs p.2 = none →
        (p.1, Json.null) ∈ priceRowOfCoin (pyGet kvs "fetch_timestamp")
          (pyGetD kvs "source" (Json.str "coingecko")) ckvs := by
  obtain ⟨rows, _, hlen, hfa, hload⟩ := load_price_single b kvs records tbl hc hd ho he
  refine ⟨rows, hlen, hload, hfa, ?_⟩
  intro ckvs p hp hnone
  rw [priceRowOfCoin]
  refine List.mem_cons_of_mem _ (List.mem_cons_of_mem _ ?_)
  have hv : (fun q => (q.1, pyGet ckvs q.2)) p = (p.1, Json.null) := by
    simp [pyGet, hnone]
  rw [← hv]
  exact List.mem_map_of_mem _ hp

/-- C1 witness: the theorem applied to a concrete two-record price blob. -/
theorem stg_prices_loads_one_row_per_record_witness :
    priceDemoBlob.content = some (Json.obj priceDemoBody)
    ∧ pyGetOpt priceDemoBody "data" = some (Json.arr [priceNoIdRecord, priceWithIdRecord])
    ∧ ([priceNoIdRecord, priceWithIdRecord].all Json.isObj) = true
    ∧ priceDemoBlob.insertErrors = false
    ∧ ∃ rows : List StgRow,
        rows.length = [priceNoIdRecord, priceWithIdRecord].length
        ∧ load_prices_to_staging [priceDemoBlob] []
            = ([] ++ rows, [priceNoIdRecord, priceWithIdRecord].length)
        ∧ List.Forall₂ (fun c row => ∀ ckvs, c = Json.obj ckvs →
            row = priceRowOfCoin (pyGet priceDemoBody "fetch_timestamp")
              (pyGetD priceDemoBody "source" (Json.str "coingecko")) ckvs)
            [priceNoIdRecord, priceWithIdRecord] rows
        ∧ ∀ (ckvs : List (String × Json)) (p : String × String), p ∈ priceFieldMap →
            pyGetOpt ckvs p.2 = none →
            (p.1, Json.null) ∈ priceRowOfCoin (pyGet priceDemoBody "fetch_timestamp")
              (pyGetD priceDemoBody "source" (Json.str "coingecko")) ckvs :=
  ⟨rfl, rfl, rfl, rfl,
    stg_prices_loads_one_row_per_record priceDemoBlob priceDemoBody
      [priceNoIdRecord, priceWithIdRecord] [] rfl rfl rfl rfl⟩

/-- C4: re-running the staging loader on the same well-formed blob of N
records is not idempotent: the second run re-inserts the same N rows
again, so the staging table grows by N once more. -/
theorem stg_loader_not_idempotent
    (b : Blob) (kvs : List (String × Json)) (records : List Json) (tbl : List StgRow)
    (hc : b.content = some (Json.obj kvs))
    (hd : pyGetOpt kvs "data" = some (Json.arr records))
    (ho : records.all Json.isObj = true)
    (he : b.insertErrors = false) :
    ∃ rows : List StgRow,
      rows.length = records.length ∧
      load_prices_to_staging [b] tbl = (tbl ++ rows, records.length) ∧
      load_prices_to_staging [b] (load_prices_to_staging [b] tbl).1
        = (tbl ++ rows ++ rows, records.length) ∧
      (load_prices_to_staging [b] (load_prices_to_staging [b] tbl).1).1.length
        = tbl.length + 2 * records.length := by
  obtain ⟨rows, hb1, hlen, _, hload1⟩ := load_price_single b kvs records tbl hc hd ho he
  obtain ⟨rows2, hb2, _, _, hload2⟩ :=
    load_price_single b kvs records (tbl ++ rows) hc hd ho he
  have hrows : rows2 = rows := by
    rw [hb1] at hb2
    exact (Except.ok.inj hb2).symm
  subst hrows
  have hsecond : load_prices_to_staging [b] (load_prices_to_staging [b] tbl).1
      = (tbl ++ rows2 ++ rows2, records.length) := by
    rw [hload1]
    exact hload2
  refine ⟨rows2, hlen, hload1, hsecond, ?_⟩
  rw [hsecond]
  simp [List.length_append, hlen]
  omega

/-- C4 witness: the theorem applied to the concrete two-record price blob. -/
theorem stg_loader_not_idempotent_witness :
    priceDemoBlob.content = some (Json.obj priceDemoBody)
    ∧ pyGetOpt priceDemoBody "data" = some (Json.arr [priceNoIdRecord, priceWithIdRecord])
    ∧ ([priceNoIdRecord, priceWithIdRecord].all Json.isObj) = true
    ∧ priceDemoBlob.insertErrors = false
    ∧ ∃ rows : List StgRow,
        rows.length = [priceNoIdRecord, priceWithIdRecord].length
        ∧ load_prices_to_staging [priceDemoBlob] []
            = ([] ++ rows, [priceNoIdRecord, priceWithIdRecord].length)
        ∧ load_prices_to_staging [priceDemoBlob] (load_prices_to_staging [priceDemoBlob] []).1
            = ([] ++ rows ++ rows, [priceNoIdRecord, priceWithIdRecord].length)
        ∧ (load_prices_to_staging [priceDemoBlob]
            (load_prices_to_staging [priceDemoBlob] []).1).1.length
            = ([] : List StgRow).length + 2 * [priceNoIdRecord, priceWithIdRecord].length :=
  ⟨rfl, rfl, rfl, rfl,
    stg_loader_not_idempotent priceDemoBlob priceDemoBody
      [priceNoIdRecord, priceWithIdRecord] [] rfl rfl rfl rfl⟩

/-- C2 counterexample: the claim fails on the code.  A sentiment blob with
one valid and one malformed record loads zero rows (the whole blob is
aborted, not just the bad record), and a price blob whose first record
lacks `id` loads both records (the id-less one is inserted with a null
`coin_id`, not skipped), with the returned value being only the count of
loaded records. -/
theorem stg_malformed_record_counterexample :
    load_sentiment_to_staging [sentDemoBlob] [] = ([], 0)
    ∧ (load_prices_to_staging [priceDemoBlob] []).2 = 2
    ∧ (load_prices_to_staging [priceDemoBlob] []).1.map (fun row => pyGetOpt row "coin_id")
        = [some Json.null, some (Json.str "bitcoin")] :=
  ⟨rfl, rfl, rfl⟩

/-- C2 amended: for sentiment, a record whose `value` or `timestamp`
fails integer/epoch parsing aborts its entire blob — the blob is logged
as failed and contributes no rows, while the remaining blobs still load;
for price, a record missing `id` is not skipped: its row is built
successfully with `coin_id` null and inserted, and the loader returns
only a count of loaded records, no failure count. -/
theorem stg_malformed_record_amended :
    (∀ (b : Blob) (kvs : List (String × Json)) (records : List Json)
        (bs1 bs2 : List Blob) (tbl : List StgRow),
      b.content = some (Json.obj kvs) →
      pyGetOpt kvs "data" = some (Json.arr records) →
      (∃ r ∈ records, sentRowE (pyGet kvs "fetch_timestamp")
          (pyGetD kvs "source" (Json.str "feargreed_index")) r = Except.error ()) →
      processBlob sentRowE "feargreed_index" b = BlobOutcome.failedLogged
      ∧ load_sentiment_to_staging (bs1 ++ b :: bs2) tbl
          = load_sentiment_to_staging (bs1 ++ bs2) tbl)
    ∧ (∀ (ft src : Json) (ckvs : List (String × Json)),
        pyGetOpt ckvs "id" = none →
        ("coin_id", Json.null) ∈ priceRowOfCoin ft src ckvs
        ∧ priceRowE ft src (Json.obj ckvs) = Except.ok (priceRowOfCoin ft src ckvs)) := by
  constructor
  · intro b kvs records bs1 bs2 tbl hc hd hbad
    have herr := buildRows_error_of_mem
      (sentRowE (pyGet kvs "fetch_timestamp")
        (pyGetD kvs "source" (Json.str "feargreed_index"))) records hbad
    have hproc : processBlob sentRowE "feargreed_index" b = BlobOutcome.failedLogged := by
      simp [processBlob, hc, processJson, hd, herr]
    refine ⟨hproc, ?_⟩
    rw [load_sentiment_to_staging, load_sentiment_to_staging,
      load_eq_loadGo, load_eq_loadGo, loadGo_append, loadGo_append]
    exact loadGo_skip _ _ _ _ _ _
      (fun rows hcontra => by rw [hproc] at hcontra; exact BlobOutcome.noConfusion hcontra)
  · intro ft src ckvs hnone
    constructor
    · rw [priceRowOfCoin]
      refine List.mem_cons_of_mem _ (List.mem_cons_of_mem _ ?_)
      have hv : (fun q => (q.1, pyGet ckvs q.2)) ("coin_id", "id") = ("coin_id", Json.null) := by
        simp [pyGet, hnone]
      rw [← hv]
      exact List.mem_map_of_mem _ (by simp [priceFieldMap])
    · rfl

/-- C2 amended witness: the amended theorem applied to the concrete
blobs of the counterexample. -/
theorem stg_malformed_record_amended_witness :
    (processBlob sentRowE "feargreed_index" sentDemoBlob = BlobOutcome.failedLogged
     ∧ load_sentiment_to_staging ([priceDemoBlob] ++ sentDemoBlob :: []) []
         = load_sentiment_to_staging ([priceDemoBlob] ++ []) [])
    ∧ (("coin_id", Json.null) ∈ priceRowOfCoin Json.null Json.null priceNoIdKvs
       ∧ priceRowE Json.null Json.null (Json.obj priceNoIdKvs)
           = Except.ok (priceRowOfCoin Json.null Json.null priceNoIdKvs)) :=
  ⟨stg_malformed_record_amended.1 sentDemoBlob sentDemoBody
      [sentGoodRecord, sentBadRecord] [priceDemoBlob] [] [] rfl rfl
      ⟨sentBadRecord, List.mem_cons_of_mem _ (List.mem_cons_self _ _), rfl⟩,
    stg_malformed_record_amended.2 Json.null Json.null priceNoIdKvs rfl⟩

/-- C3: the loaders return the count of successfully inserted rows (the
exact growth of the staging table); a blob whose parse or insert fails is
logged and skipped without aborting the remaining blobs; and a total
inability to enumerate the inputs yields an empty listing and a zero
count rather than an exception (the loaders are total functions — no
per-blob failure ever raises). -/
theorem stg_loader_per_blob_isolation :
    (∀ (f : Json → Json → Json → Except Unit StgRow) (d : String)
        (blobs : List Blob) (tbl : List StgRow),
      (load_to_staging f d blobs tbl).1.length
        = tbl.length + (load_to_staging f d blobs tbl).2)
    ∧ (∀ (f : Json → Json → Json → Except Unit StgRow) (d : String) (b : Blob)
        (bs1 bs2 : List Blob) (tbl : List StgRow),
      processBlob f d b = BlobOutcome.failedLogged
        ∨ processBlob f d b = BlobOutcome.insertErrorsLogged →
      load_to_staging f d (bs1 ++ b :: bs2) tbl = load_to_staging f d (bs1 ++ bs2) tbl)
    ∧ (∀ (available : List Blob) (lim : Option Nat) (tbl : List StgRow),
      load_prices_to_staging (list_gcs_files available true lim) tbl = (tbl, 0)
      ∧ load_sentiment_to_staging (list_gcs_files available true lim) tbl = (tbl, 0)) := by
  refine ⟨?_, ?_, ?_⟩
  · intro f d blobs tbl
    rw [load_eq_loadGo]
    have := loadGo_count f d blobs tbl 0
    omega
  · intro f d b bs1 bs2 tbl h
    rw [load_eq_loadGo, load_eq_loadGo, loadGo_append, loadGo_append]
    refine loadGo_skip f d b bs2 _ _ ?_
    intro rows hcontra
    rcases h with h | h <;>
      (rw [h] at hcontra; exact BlobOutcome.noConfusion hcontra)
  · intro available lim tbl
    constructor <;>
      simp [list_gcs_files, load_prices_to_staging, load_sentiment_to_staging,
        load_to_staging]

/-- C3 witness: the theorem applied to a concrete run in which an
unparseable blob sits between two good blobs. -/
theorem stg_loader_per_blob_isolation_witness :
    (load_to_staging priceRowE "coingecko" [priceDemoBlob, unparseableBlob] []).1.length
      = ([] : List StgRow).length
        + (load_to_staging priceRowE "coingecko" [priceDemoBlob, unparseableBlob] []).2
    ∧ (processBlob priceRowE "coingecko" unparseableBlob = BlobOutcome.failedLogged
        ∨ processBlob priceRowE "coingecko" unparseableBlob = BlobOutcome.insertErrorsLogged)
    ∧ load_to_staging priceRowE "coingecko" ([priceDemoBlob] ++ unparseableBlob :: [priceDemoBlob]) []
        = load_to_staging priceRowE "coingecko" ([priceDemoBlob] ++ [priceDemoBlob]) []
    ∧ load_prices_to_staging (list_gcs_files [priceDemoBlob] true none) [] = ([], 0)
    ∧ load_sentiment_to_staging (list_gcs_files [priceDemoBlob] true none) [] = ([], 0) :=
  ⟨stg_loader_per_blob_isolation.1 priceRowE "coingecko" [priceDemoBlob, unparseableBlob] [],
    Or.inl rfl,
    stg_loader_per_blob_isolation.2.1 priceRowE "coingecko" unparseableBlob
      [priceDemoBlob] [priceDemoBlob] [] (Or.inl rfl),
    (stg_loader_per_blob_isolation.2.2 [priceDemoBlob] none []).1,
    (stg_loader_per_blob_isolation.2.2 [priceDemoBlob] none []).2⟩

/-- C9: a blob parsing to a JSON object without a `data` key holding a
list is silently skipped by either loader: its outcome carries no log
entry and it contributes no rows and no count to the run. -/
theorem stg_no_data_list_silently_skipped
    (f : Json → Json → Json → Except Unit StgRow) (d : String) (b : Blob)
    (kvs : List (String × Json))
    (hc : b.content = some (Json.obj kvs))
    (hnd : hasDataList kvs = false) :
    processBlob f d b = BlobOutcome.skippedSilently
    ∧ ∀ (bs1 bs2 : List Blob) (tbl : List StgRow),
        load_to_staging f d (bs1 ++ b :: bs2) tbl
          = load_to_staging f d (bs1 ++ bs2) tbl := by
  have hproc : processBlob f d b = BlobOutcome.skippedSilently := by
    simp only [processBlob, hc, processJson]
    cases hg : pyGetOpt kvs "data" with
    | none => rfl
    | some v =>
      cases v with
      | arr xs => rw [hasDataList, hg] at hnd; cases hnd
      | null => rfl
      | bool bb => rfl
      | num n => rfl
      | str s => rfl
      | obj kvs2 => rfl
  refine ⟨hproc, ?_⟩
  intro bs1 bs2 tbl
  rw [load_eq_loadGo, load_eq_loadGo, loadGo_append, loadGo_append]
  exact loadGo_skip f d b bs2 _ _
    (fun rows hcontra => by rw [hproc] at hcontra; exact BlobOutcome.noConfusion hcontra)

/-- C9 witness: the theorem applied to a concrete object blob without a
`data` key, under both the price and the sentiment loader. -/
theorem stg_no_data_list_silently_skipped_witness :
    noDataBlob.content = some (Json.obj [("hello", Json.null)])
    ∧ hasDataList [("hello", Json.null)] = false
    ∧ processBlob priceRowE "coingecko" noDataBlob = BlobOutcome.skippedSilently
    ∧ processBlob sentRowE "feargreed_index" noDataBlob = BlobOutcome.skippedSilently
    ∧ load_to_staging priceRowE "coingecko" ([priceDemoBlob] ++ noDataBlob :: []) []
        = load_to_staging priceRowE "coingecko" ([priceDemoBlob] ++ []) []
    ∧ load_to_staging sentRowE "feargreed_index" ([] ++ noDataBlob :: []) []
        = load_to_staging sentRowE "feargreed_index" ([] ++ []) [] :=
  ⟨rfl, rfl,
    (stg_no_data_list_silently_skipped priceRowE "coingecko" noDataBlob
      [("hello", Json.null)] rfl rfl).1,
    (stg_no_data_list_silently_skipped sentRowE "feargreed_index" noDataBlob
      [("hello", Json.null)] rfl rfl).1,
    (stg_no_data_list_silently_skipped priceRowE "coingecko" noDataBlob
      [("hello", Json.null)] rfl rfl).2 [priceDemoBlob] [] [],
    (stg_no_data_list_silently_skipped sentRowE "feargreed_index" noDataBlob
      [("hello", Json.null)] rfl rfl).2 [] [] []⟩

/-- C5: (spec-modelled transformer) after any number of sequential
transformer runs the coin dimension keeps at most one `is_current` row
per natural key; when the tracked attribute changes, the old active row
is expired (expiry date set, `is_current` false) and a new row is
inserted with a fresh surrogate key, effective date now, open expiry and
`is_current` true; and the key allocator stays well-formed across runs. -/
theorem dim_coin_scd2_invariant :
    (∀ (runs : List (Nat × List CoinStaged)) (st : DimCoinState),
      AtMostOneCurrent st.rows → AtMostOneCurrent (transformerRuns runs st).rows)
    ∧ (∀ (now : Nat) (st : DimCoinState) (c : CoinStaged) (cur : DimCoinRow),
        st.rows.find? (isCurrentFor c.coin_id c.symbol) = some cur →
        (cur.name == c.name) = false →
        keysBelow st = true →
        expireRow now cur ∈ (upsertCoin now st c).rows
        ∧ DimCoinRow.mk st.next_key c.coin_id c.symbol c.name now none true
            ∈ (upsertCoin now st c).rows
        ∧ ∀ r ∈ st.rows, r.coin_key ≠ st.next_key)
    ∧ (∀ (runs : List (Nat × List CoinStaged)) (st : DimCoinState),
        keysBelow st = true → keysBelow (transformerRuns runs st) = true) := by
  refine ⟨transformerRuns_inv, ?_, transformerRuns_keys⟩
  intro now st c cur hf hn hk
  have hne : ¬(cur.name == c.name) = true := by simp [hn]
  refine ⟨?_, ?_, ?_⟩
  · simp only [upsertCoin, hf, if_neg hne]
    refine List.mem_append.mpr (Or.inl ?_)
    have hcur : isCurrentFor c.coin_id c.symbol cur = true := List.find?_some hf
    have hmem : cur ∈ st.rows := List.mem_of_find?_eq_some hf
    have hv : (fun r => if isCurrentFor c.coin_id c.symbol r then expireRow now r else r) cur
        = expireRow now cur := by simp [hcur]
    rw [← hv]
    exact List.mem_map_of_mem _ hmem
  · simp only [upsertCoin, hf, if_neg hne]
    exact List.mem_append.mpr (Or.inr (List.mem_singleton.mpr rfl))
  · intro r hr
    rw [keysBelow, List.all_eq_true] at hk
    have := hk r hr
    simp only [decide_eq_true_eq] at this
    exact Nat.ne_of_lt this

/-- C5 witness: the theorem applied to a fresh table and to a concrete
bitcoin rename (Foo to Bar). -/
theorem dim_coin_scd2_invariant_witness :
    AtMostOneCurrent ((transformerRuns dimDemoRuns ⟨[], 0⟩).rows)
    ∧ (dimDemoState.rows.find? (isCurrentFor dimDemoStaged.coin_id dimDemoStaged.symbol)
        = some dimDemoOldRow
       ∧ (dimDemoOldRow.name == dimDemoStaged.name) = false
       ∧ keysBelow dimDemoState = true
       ∧ expireRow 2 dimDemoOldRow ∈ (upsertCoin 2 dimDemoState dimDemoStaged).rows
       ∧ DimCoinRow.mk dimDemoState.next_key dimDemoStaged.coin_id dimDemoStaged.symbol
           dimDemoStaged.name 2 none true ∈ (upsertCoin 2 dimDemoState dimDemoStaged).rows
       ∧ ∀ r ∈ dimDemoState.rows, r.coin_key ≠ dimDemoState.next_key)
    ∧ keysBelow (transformerRuns dimDemoRuns ⟨[], 0⟩) = true := by
  have h := dim_coin_scd2_invariant.2.1 2 dimDemoState dimDemoStaged dimDemoOldRow
    (by decide) (by decide) (by decide)
  exact ⟨dim_coin_scd2_invariant.1 dimDemoRuns ⟨[], 0⟩ (fun cid sym => Nat.zero_le 1),
    ⟨by decide, by decide, by decide, h.1, h.2.1, h.2.2⟩,
    dim_coin_scd2_invariant.2.2 dimDemoRuns ⟨[], 0⟩ rfl⟩

/-- C6: with the GCP project id or the bucket name unset (or empty), the
staging-load invocation is fatally rejected: `run_load_to_staging` does
no load work (the staging tables are returned unchanged), returns False,
and the process exits with status 1. -/
theorem run_load_missing_config_fatal
    (env : Env) (w : GcsWorld) (db : StagingDB) (lim : Option Nat)
    (h : truthyStr env.gcp_project_id = false ∨ truthyStr env.gcs_bucket_name = false) :
    run_load_to_staging env w db lim = (db, false) ∧ main_exit_code env w db = 1 := by
  have hcond : (truthyStr env.gcp_project_id && truthyStr env.gcs_bucket_name) = false := by
    rcases h with h | h <;> simp [h]
  constructor
  · simp [run_load_to_staging, hcond]
  · simp [main_exit_code, run_load_to_staging, hcond]

/-- C6 witness: the theorem applied to an environment lacking the
project id. -/
theorem run_load_missing_config_fatal_witness :
    (truthyStr envMissingProject.gcp_project_id = false
      ∨ truthyStr envMissingProject.gcs_bucket_name = false)
    ∧ run_load_to_staging envMissingProject demoWorld demoDB (some 10) = (demoDB, false)
    ∧ main_exit_code envMissingProject demoWorld demoDB = 1 :=
  ⟨Or.inl rfl,
    (run_load_missing_config_fatal envMissingProject demoWorld demoDB (some 10)
      (Or.inl rfl)).1,
    (run_load_missing_config_fatal envMissingProject demoWorld demoDB (some 10)
      (Or.inl rfl)).2⟩

/-- C8: with both required environment variables set, the invocation
returns True and exits 0 for every possible GCS world — in particular
when every blob fails and zero rows are loaded for both sources. -/
theorem run_load_success_regardless
    (env : Env) (w : GcsWorld) (db : StagingDB) (lim : Option Nat)
    (hp : truthyStr env.gcp_project_id = true)
    (hb : truthyStr env.gcs_bucket_name = true) :
    (run_load_to_staging env w db lim).2 = true ∧ main_exit_code env w db = 0 := by
  constructor
  · simp [run_load_to_staging, hp, hb]
  · simp [main_exit_code, run_load_to_staging, hp, hb]

/-- C8 witness: the theorem applied to a fully configured environment
with a world in which every blob fails to parse; the staging tables stay
empty yet the run reports success. -/
theorem run_load_success_regardless_witness :
    truthyStr envComplete.gcp_project_id = true
    ∧ truthyStr envComplete.gcs_bucket_name = true
    ∧ (run_load_to_staging envComplete failWorld demoDB (some 10)).2 = true
    ∧ main_exit_code envComplete failWorld demoDB = 0
    ∧ (run_load_to_staging envComplete failWorld demoDB (some 10)).1 = demoDB :=
  ⟨rfl, rfl,
    (run_load_success_regardless envComplete failWorld demoDB (some 10) rfl rfl).1,
    (run_load_success_regardless envComplete failWorld demoDB (some 10) rfl rfl).2,
    rfl⟩

/-- C7: every raw blob the ingestion scripts write is a single JSON
object with exactly the fields `fetch_timestamp`, `source`,
`num_records` and `data`, where `data` is the fetched leaf-record array
and `num_records` equals its length. -/
theorem ingestion_blob_shape
    (required : List String) (source nowIso : String) (fetched : Option Json) (j : Json)
    (h : run_ingestion_blob required source nowIso fetched = some j) :
    ∃ xs : List Json, fetched = some (Json.arr xs) ∧
      j = Json.obj [("fetch_timestamp", Json.str nowIso), ("source", Json.str source),
        ("num_records", Json.num (xs.length : Int)), ("data", Json.arr xs)] := by
  by_cases hv : validate_data required fetched = true
  · obtain ⟨xs, rfl⟩ := validate_true_arr required fetched hv
    refine ⟨xs, rfl, ?_⟩
    rw [run_ingestion_blob, if_pos hv] at h
    simp only [save_to_local_json, pyLen] at h
    exact (Option.some.inj h).symm
  · rw [run_ingestion_blob, if_neg hv] at h
    cases h

/-- C7 witness: the theorem applied to a concrete fetched price array. -/
theorem ingestion_blob_shape_witness :
    run_ingestion_blob priceRequiredFields "coingecko" "2024-01-01T00:00:00+00:00"
      fetchedPricesDemo
      = some (Json.obj [("fetch_timestamp", Json.str "2024-01-01T00:00:00+00:00"),
          ("source", Json.str "coingecko"), ("num_records", Json.num 1),
          ("data", Json.arr [Json.obj [("id", Json.str "bitcoin"),
            ("symbol", Json.str "btc"), ("name", Json.str "Bitcoin"),
            ("current_price", Json.num 43000),
            ("market_cap", Json.num 840000000000)]])])
    ∧ ∃ xs : List Json, fetchedPricesDemo = some (Json.arr xs) ∧
        Json.obj [("fetch_timestamp", Json.str "2024-01-01T00:00:00+00:00"),
          ("source", Json.str "coingecko"), ("num_records", Json.num 1),
          ("data", Json.arr [Json.obj [("id", Json.str "bitcoin"),
            ("symbol", Json.str "btc"), ("name", Json.str "Bitcoin"),
            ("current_price", Json.num 43000),
            ("market_cap", Json.num 840000000000)]])]
        = Json.obj [("fetch_timestamp", Json.str "2024-01-01T00:00:00+00:00"),
            ("source", Json.str "coingecko"),
            ("num_records", Json.num (xs.length : Int)), ("data", Json.arr xs)] :=
  ⟨rfl, ingestion_blob_shape priceRequiredFields "coingecko" "2024-01-01T00:00:00+00:00"
    fetchedPricesDemo _ rfl⟩

/-- C10: `validate_data` inspects only the first fetched element: any
non-empty list whose first element is a dict holding every required field
validates, whatever the later elements look like; and a False result can
only come from a falsy input, a non-list input, or a first dict element
missing a required field. -/
theorem validate_data_first_element_only :
    (∀ (required : List String) (kvs : List (String × Json)) (rest : List Json),
      required.all (fun fld => (pyGetOpt kvs fld).isSome) = true →
      validate_data required (some (Json.arr (Json.obj kvs :: rest))) = true)
    ∧ (∀ (required : List String) (d : Option Json),
        validate_data required d = false →
        pyFalsy d = true
        ∨ (∀ xs : List Json, d ≠ some (Json.arr xs))
        ∨ ∃ (kvs : List (String × Json)) (rest : List Json) (fld : String),
            d = some (Json.arr (Json.obj kvs :: rest)) ∧ fld ∈ required ∧
            pyGetOpt kvs fld = none) := by
  constructor
  · intro required kvs rest hall
    simp [validate_data, pyFalsy, hall]
  · intro required d h
    by_cases hf : pyFalsy d = true
    · exact Or.inl hf
    · cases d with
      | none => simp [pyFalsy] at hf
      | some v =>
        cases v with
        | arr xs =>
          cases xs with
          | nil => simp [pyFalsy] at hf
          | cons x rest =>
            cases x with
            | obj kvs =>
              refine Or.inr (Or.inr ⟨kvs, rest, ?_⟩)
              simp only [validate_data, if_neg hf] at h
              obtain ⟨fld, hmem, hns⟩ := List.all_eq_false.mp h
              refine ⟨fld, rfl, hmem, ?_⟩
              cases hg : pyGetOpt kvs fld with
              | none => rfl
              | some v2 => rw [hg] at hns; simp at hns
            | null => simp [validate_data, hf] at h
            | bool bb => simp [validate_data, hf] at h
            | num n => simp [validate_data, hf] at h
            | str s => simp [validate_data, hf] at h
            | arr ys => simp [validate_data, hf] at h
        | null => simp [pyFalsy] at hf
        | bool bb =>
          exact Or.inr (Or.inl (fun xs hc => Json.noConfusion (Option.some.inj hc)))
        | num n =>
          exact Or.inr (Or.inl (fun xs hc => Json.noConfusion (Option.some.inj hc)))
        | str s =>
          exact Or.inr (Or.inl (fun xs hc => Json.noConfusion (Option.some.inj hc)))
        | obj kvs =>
          exact Or.inr (Or.inl (fun xs hc => Json.noConfusion (Option.some.inj hc)))

/-- C10 witness: the theorem applied to a list whose later element is
malformed, and to a non-list input. -/
theorem validate_data_first_element_only_witness :
    (sentimentRequiredFields.all (fun fld => (pyGetOpt sentGoodKvs fld).isSome) = true)
    ∧ validate_data sentimentRequiredFields
        (some (Json.arr (Json.obj sentGoodKvs :: [Json.null]))) = true
    ∧ validate_data priceRequiredFields (some (Json.num 3)) = false
    ∧ (pyFalsy (some (Json.num 3)) = true
       ∨ (∀ xs : List Json, some (Json.num 3) ≠ some (Json.arr xs))
       ∨ ∃ (kvs : List (String × Json)) (rest : List Json) (fld : String),
           some (Json.num 3) = some (Json.arr (Json.obj kvs :: rest))
           ∧ fld ∈ priceRequiredFields ∧ pyGetOpt kvs fld = none) :=
  ⟨rfl,
    validate_data_first_element_only.1 sentimentRequiredFields sentGoodKvs [Json.null] rfl,
    rfl,
    validate_data_first_element_only.2 priceRequiredFields (some (Json.num 3)) rfl⟩

end CryptoPipeline
